/-
  Verification of the Lansdowne dashboard's computational core against its
  specification.

  The development shallowly embeds the three pure computations of the
  repository:

  * the capital-recovery (breakeven) estimator of
    `src/components/PropertySelector.tsx` (lines 674–719);
  * the ledger aggregation (income / expense / net / breakdown-by-type
    totals) of the dashboard pages (`src/unnamed/part_000` lines 106–127,
    `src/unnamed/part_001` lines 175–197);
  * the ledger filtering and sorting pipeline (`src/unnamed/part_000`
    lines 128–163).

  Numbers are modelled as exact rationals (ℚ).  JavaScript dates are
  modelled by their millisecond timestamps: a chart point's `date` string,
  parsed with `new Date(s).getTime()`, is a rational number of
  milliseconds, and the conversion back to a day string via
  `toISOString().split('T')[0]` is modelled as flooring the timestamp to a
  whole number of days (`floorDay`).  `Math.round` is modelled as
  floor(x + 1/2), JavaScript's round-half-up.  The result of the
  `Number(...)` coercion of a record's amount field is an `Option ℚ`:
  `some q` when the field coerces to the number `q`, `none` when the field
  is absent or non-numeric (i.e. the coercion yields NaN); NaN propagation
  through `+` is `nanAdd`.
-/
import Mathlib

set_option maxRecDepth 4000

namespace Lansdowne

/-- A point of the appreciation chart: `{ date, value, label }` from
`PropertySelector.tsx`.  `date` is the millisecond timestamp obtained from
the point's date string. -/
structure ChartPoint where
  date  : ℚ
  value : ℚ
  label : String
deriving DecidableEq, Repr

/-- Default chart point, used only to totalise out-of-range list access. -/
def dfltPoint : ChartPoint := ⟨0, 0, ""⟩

/-- Result of the payback / capital-recovered calculation: the three
variables `breakevenXIndex`, `breakevenDate`, `projectedPoints` set by the
block at `PropertySelector.tsx:677–719`.  `breakevenDate` is the
millisecond timestamp of the midnight opening the returned ISO day
string. -/
structure BreakevenResult where
  breakevenXIndex : Option ℚ
  breakevenDate   : Option ℚ
  projectedPoints : List ChartPoint
deriving DecidableEq, Repr

/-- One day in milliseconds. -/
def dayMs : ℚ := 24 * 60 * 60 * 1000

/-- Two calendar years in milliseconds, as the source writes it:
`2 * 365.25 * 24 * 60 * 60 * 1000`. -/
def twoYearsMs : ℚ := 2 * (365.25 : ℚ) * 24 * 60 * 60 * 1000

/-- Twenty-five years in milliseconds: `25 * 365.25 * 24 * 60 * 60 * 1000`. -/
def twentyFiveYearsMs : ℚ := 25 * (365.25 : ℚ) * 24 * 60 * 60 * 1000

/-- `new Date(ms).toISOString().split('T')[0]`, re-read as a timestamp:
the timestamp floored to a whole number of days. -/
def floorDay (ms : ℚ) : ℚ := (⌊ms / dayMs⌋ : ℤ) * dayMs

/-- JavaScript's `Math.round`: round half toward positive infinity. -/
def jsRound (x : ℚ) : ℚ := (⌊x + 1/2⌋ : ℤ)

/-- The scanning loop of `PropertySelector.tsx:686–696`: walk the adjacent
pairs of the chart points in ascending date order and return the first
pair `(p0, p1)` with `p0.value < target ∧ target ≤ p1.value`, together
with its index, stopping at the first match (`break`). -/
def findStraddlePair (target : ℚ) : List ChartPoint → Option (ℕ × ChartPoint × ChartPoint)
  | p0 :: p1 :: rest =>
      if p0.value < target ∧ target ≤ p1.value then some (0, p0, p1)
      else
        match findStraddlePair target (p1 :: rest) with
        | some (i, a, b) => some (i + 1, a, b)
        | none => none
  | _ => none

/-- `breakevenTarget = purchaseChartValue + netCashInvested`
(`PropertySelector.tsx:675–676`), where `purchaseChartValue` is the first
chart point's value, or the property's purchase price when the chart is
empty. -/
def breakevenTargetOf (chartPoints : List ChartPoint) (netCashInvested purchasePrice : ℚ) : ℚ :=
  (match chartPoints with
   | [] => purchasePrice
   | p :: _ => p.value) + netCashInvested

/-- The payback / capital-recovered calculation of
`PropertySelector.tsx:674–719`, as a pure function of the chart points,
the net cash invested and the property's purchase price. -/
def computeBreakeven (chartPoints : List ChartPoint) (netCashInvested purchasePrice : ℚ) :
    BreakevenResult :=
  let breakevenTarget := breakevenTargetOf chartPoints netCashInvested purchasePrice
  if 2 ≤ chartPoints.length ∧ 0 < netCashInvested then
    let first := chartPoints.getD 0 dfltPoint
    if breakevenTarget ≤ first.value then
      ⟨some 0, some first.date, []⟩
    else
      match findStraddlePair breakevenTarget chartPoints with
      | some (i, p0, p1) =>
          let t := (breakevenTarget - p0.value) / (p1.value - p0.value)
          ⟨some ((i : ℚ) + t), some (floorDay (p0.date + t * (p1.date - p0.date))), []⟩
      | none =>
          let last := chartPoints.getD (chartPoints.length - 1) dfltPoint
          let totalMs := last.date - first.date
          if 0 < totalMs ∧ first.value < last.value then
            let valuePerMs := (last.value - first.value) / totalMs
            let msToBreakeven := (breakevenTarget - last.value) / valuePerMs
            if 0 < msToBreakeven ∧ msToBreakeven < twentyFiveYearsMs then
              let breakevenMs := last.date + msToBreakeven
              let beyondMs := breakevenMs + twoYearsMs
              let beyondVal := jsRound (breakevenTarget + valuePerMs * twoYearsMs)
              ⟨some (chartPoints.length : ℚ), some (floorDay breakevenMs),
               [⟨floorDay breakevenMs, breakevenTarget, "Capital Recovered (Projected)"⟩,
                ⟨floorDay beyondMs, beyondVal, "Projected"⟩]⟩
            else ⟨none, none, []⟩
          else ⟨none, none, []⟩
  else ⟨none, none, []⟩

/-- The pair at index `i` straddles the target: `v_i < target ≤ v_{i+1}`
with both indices in range (the loop guard `i < chartPoints.length - 1`). -/
def straddleAt (target : ℚ) (pts : List ChartPoint) (i : ℕ) : Prop :=
  i + 1 < pts.length ∧
    (pts.getD i dfltPoint).value < target ∧ target ≤ (pts.getD (i + 1) dfltPoint).value

instance (target : ℚ) (pts : List ChartPoint) (i : ℕ) :
    Decidable (straddleAt target pts i) := by
  unfold straddleAt; infer_instance

lemma straddleAt_cons_succ (tgt : ℚ) (p : ChartPoint) (tl : List ChartPoint) (j : ℕ) :
    straddleAt tgt (p :: tl) (j + 1) ↔ straddleAt tgt tl j := by
  unfold straddleAt
  simp only [List.getD_cons_succ, List.length_cons]
  constructor <;> rintro ⟨h1, h2, h3⟩ <;> exact ⟨by omega, h2, h3⟩

lemma straddleAt_zero (tgt : ℚ) (p0 p1 : ChartPoint) (rest : List ChartPoint) :
    straddleAt tgt (p0 :: p1 :: rest) 0 ↔ p0.value < tgt ∧ tgt ≤ p1.value := by
  unfold straddleAt
  simp only [List.getD_cons_zero, List.getD_cons_succ, List.length_cons]
  constructor
  · rintro ⟨_, h2, h3⟩; exact ⟨h2, h3⟩
  · rintro ⟨h2, h3⟩; exact ⟨by omega, h2, h3⟩

/-- Whatever pair the scan returns does straddle the target; in particular
its two values differ, so the interpolation divisor `v1 - v0` is positive. -/
lemma findStraddle_straddles (tgt : ℚ) :
    ∀ (pts : List ChartPoint) (i : ℕ) (a b : ChartPoint),
      findStraddlePair tgt pts = some (i, a, b) → a.value < tgt ∧ tgt ≤ b.value := by
  intro pts
  induction pts with
  | nil => intro i a b h; simp [findStraddlePair] at h
  | cons p0 tl ih =>
    cases tl with
    | nil => intro i a b h; simp [findStraddlePair] at h
    | cons p1 rest =>
      intro i a b h
      rw [findStraddlePair] at h
      by_cases hc : p0.value < tgt ∧ tgt ≤ p1.value
      · rw [if_pos hc] at h
        obtain ⟨rfl, rfl, rfl⟩ : 0 = i ∧ p0 = a ∧ p1 = b := by
          simpa using h
        exact hc
      · rw [if_neg hc] at h
        cases hfs : findStraddlePair tgt (p1 :: rest) with
        | none => rw [hfs] at h; simp at h
        | some v =>
          obtain ⟨k, a', b'⟩ := v
          rw [hfs] at h
          obtain ⟨rfl, rfl, rfl⟩ : k + 1 = i ∧ a' = a ∧ b' = b := by
            simpa using h
          exact ih k a' b' hfs

/-- If `i` is the first straddling index, the scan returns exactly the
pair at `i`. -/
lemma findStraddle_first (tgt : ℚ) :
    ∀ (pts : List ChartPoint) (i : ℕ),
      straddleAt tgt pts i → (∀ j, j < i → ¬ straddleAt tgt pts j) →
      findStraddlePair tgt pts =
        some (i, pts.getD i dfltPoint, pts.getD (i + 1) dfltPoint) := by
  intro pts
  induction pts with
  | nil => intro i hi _; exact absurd hi.1 (by simp)
  | cons p0 tl ih =>
    cases tl with
    | nil =>
      intro i hi _
      exact absurd hi.1 (by simp only [List.length_cons, List.length_nil]; omega)
    | cons p1 rest =>
      intro i hi hmin
      cases i with
      | zero =>
        have hc : p0.value < tgt ∧ tgt ≤ p1.value := (straddleAt_zero tgt p0 p1 rest).mp hi
        rw [findStraddlePair, if_pos hc]
        simp [List.getD_cons_zero, List.getD_cons_succ]
      | succ k =>
        have hc : ¬(p0.value < tgt ∧ tgt ≤ p1.value) := by
          intro hc
          exact hmin 0 (Nat.succ_pos k) ((straddleAt_zero tgt p0 p1 rest).mpr hc)
        rw [findStraddlePair, if_neg hc]
        have htl : straddleAt tgt (p1 :: rest) k := (straddleAt_cons_succ tgt p0 _ k).mp hi
        have hmintl : ∀ j, j < k → ¬ straddleAt tgt (p1 :: rest) j := by
          intro j hj hstr
          exact hmin (j + 1) (by omega) ((straddleAt_cons_succ tgt p0 _ j).mpr hstr)
        rw [ih k htl hmintl]
        simp [List.getD_cons_succ]

/-- If no pair straddles the target, the scan finds nothing. -/
lemma findStraddle_none (tgt : ℚ) :
    ∀ (pts : List ChartPoint), (∀ i, ¬ straddleAt tgt pts i) →
      findStraddlePair tgt pts = none := by
  intro pts
  induction pts with
  | nil => intro _; rfl
  | cons p0 tl ih =>
    cases tl with
    | nil => intro _; rfl
    | cons p1 rest =>
      intro h
      have hc : ¬(p0.value < tgt ∧ tgt ≤ p1.value) := by
        intro hc; exact h 0 ((straddleAt_zero tgt p0 p1 rest).mpr hc)
      rw [findStraddlePair, if_neg hc]
      have htl : ∀ i, ¬ straddleAt tgt (p1 :: rest) i := by
        intro i hstr
        exact h (i + 1) ((straddleAt_cons_succ tgt p0 _ i).mpr hstr)
      rw [ih htl]

/-- Bounded no-straddle check suffices: indices at or beyond the end of
the list never straddle. -/
lemma no_straddle_of_ball (tgt : ℚ) (pts : List ChartPoint)
    (h : ∀ i, i < pts.length → ¬ straddleAt tgt pts i) :
    ∀ i, ¬ straddleAt tgt pts i := by
  intro i hi
  exact h i (by have := hi.1; omega) hi

lemma breakevenTargetOf_ne_nil (pts : List ChartPoint) (cash pp : ℚ) (h : pts ≠ []) :
    breakevenTargetOf pts cash pp = (pts.getD 0 dfltPoint).value + cash := by
  cases pts with
  | nil => exact absurd rfl h
  | cons p tl => rfl

lemma breakevenTargetOf_append (pts : List ChartPoint) (x : ChartPoint) (cash pp : ℚ)
    (h : pts ≠ []) :
    breakevenTargetOf (pts ++ [x]) cash pp = breakevenTargetOf pts cash pp := by
  cases pts with
  | nil => exact absurd rfl h
  | cons p tl => rfl

lemma straddleAt_append_left (tgt : ℚ) (pts : List ChartPoint) (x : ChartPoint) (j : ℕ)
    (hj : j + 1 < pts.length) :
    straddleAt tgt (pts ++ [x]) j ↔ straddleAt tgt pts j := by
  unfold straddleAt
  rw [List.getD_append _ _ _ _ (by omega), List.getD_append _ _ _ _ hj]
  simp only [List.length_append, List.length_cons, List.length_nil]
  constructor <;> rintro ⟨_, h2, h3⟩ <;> exact ⟨by omega, h2, h3⟩

/-- When the interpolation scan succeeds, the result is the interpolated
fractional index and the day of the linearly interpolated timestamp. -/
lemma computeBreakeven_interp (pts : List ChartPoint) (cash pp : ℚ)
    (h2 : 2 ≤ pts.length) (hc : 0 < cash)
    (i : ℕ) (a b : ChartPoint)
    (hfs : findStraddlePair (breakevenTargetOf pts cash pp) pts = some (i, a, b)) :
    computeBreakeven pts cash pp =
      ⟨some ((i : ℚ) + (breakevenTargetOf pts cash pp - a.value) / (b.value - a.value)),
       some (floorDay (a.date +
         (breakevenTargetOf pts cash pp - a.value) / (b.value - a.value) * (b.date - a.date))),
       []⟩ := by
  have hne : pts ≠ [] := by intro h; rw [h] at h2; simp at h2
  have htgt := breakevenTargetOf_ne_nil pts cash pp hne
  have hlt : (pts.getD 0 dfltPoint).value < breakevenTargetOf pts cash pp := by
    rw [htgt]; linarith
  simp only [computeBreakeven]
  rw [if_pos ⟨h2, hc⟩, if_neg (not_le.mpr hlt), hfs]

/-- C1: when some adjacent pair of chart points straddles the target
(`v_i < target ≤ v_{i+1}`) and `i` is the first such index in ascending
date order, the estimator returns the fractional index
`i + (target − v0) / (v1 − v0)` and the date obtained by linear
interpolation over elapsed milliseconds between the two points'
timestamps (rendered as the ISO day containing that instant), with no
projected points. -/
theorem breakeven_interpolates_first_straddling_pair
    (pts : List ChartPoint) (cash pp : ℚ) (i : ℕ)
    (h2 : 2 ≤ pts.length) (hc : 0 < cash)
    (hi : straddleAt (breakevenTargetOf pts cash pp) pts i)
    (hmin : ∀ j, j < i → ¬ straddleAt (breakevenTargetOf pts cash pp) pts j) :
    computeBreakeven pts cash pp =
      ⟨some ((i : ℚ) +
         (breakevenTargetOf pts cash pp - (pts.getD i dfltPoint).value) /
           ((pts.getD (i + 1) dfltPoint).value - (pts.getD i dfltPoint).value)),
       some (floorDay ((pts.getD i dfltPoint).date +
         (breakevenTargetOf pts cash pp - (pts.getD i dfltPoint).value) /
           ((pts.getD (i + 1) dfltPoint).value - (pts.getD i dfltPoint).value) *
           ((pts.getD (i + 1) dfltPoint).date - (pts.getD i dfltPoint).date))),
       []⟩ :=
  computeBreakeven_interp pts cash pp h2 hc i _ _
    (findStraddle_first (breakevenTargetOf pts cash pp) pts i hi hmin)

/-- C1 witness: for points `[(t0, 100000), (t1, 150000)]` with t0 = 0,
t1 = ten days, and target 140000 (net cash 40000), the estimator returns
fraction 0.8 = 4/5 between the two points and the interpolated day
eight days in. -/
theorem breakeven_interpolates_first_straddling_pair_witness :
    computeBreakeven
        [⟨0, 100000, "Purchase Price"⟩, ⟨864000000, 150000, "Market Value Estimate"⟩]
        40000 0 =
      ⟨some (4/5), some 691200000, []⟩ := by
  have h := breakeven_interpolates_first_straddling_pair
    [⟨0, 100000, "Purchase Price"⟩, ⟨864000000, 150000, "Market Value Estimate"⟩]
    40000 0 0 (by norm_num) (by norm_num)
    (by norm_num [straddleAt, dfltPoint, breakevenTargetOf])
    (fun j hj => absurd hj (Nat.not_lt_zero j))
  rw [h]
  norm_num [breakevenTargetOf, floorDay, dayMs, dfltPoint]

/-- C2 counterexample: for the single-point sequence `[(0, 150000)]` with
net cash invested 0 (so the target, 150000, is already met by the first
point's value), the claim asserts breakeven index 0 and the first point's
date; the code reports no breakeven at all, because its guard requires at
least two points and strictly positive net cash invested. -/
theorem breakeven_already_achieved_counterexample :
    ¬ ((computeBreakeven [⟨0, 150000, "Purchase Price"⟩] 0 0).breakevenXIndex = some 0 ∧
       (computeBreakeven [⟨0, 150000, "Purchase Price"⟩] 0 0).breakevenDate = some 0) := by
  norm_num [computeBreakeven]
  intro h
  simp at h

/-- C2 amended: whenever the first point's value already meets or exceeds
the target, the estimator reports no breakeven at all (index and date
null, no projected points).  Indeed the target is the first point's value
plus the net cash invested, so the first value can only meet it when the
net cash invested is ≤ 0 — and then the enclosing guard
`chartPoints.length >= 2 && netCashInvested > 0` fails, making the
"already achieved" branch unreachable. -/
theorem breakeven_first_value_meets_target_undetermined
    (pts : List ChartPoint) (cash pp : ℚ) (hne : pts ≠ [])
    (h : breakevenTargetOf pts cash pp ≤ (pts.getD 0 dfltPoint).value) :
    computeBreakeven pts cash pp = ⟨none, none, []⟩ := by
  have htgt := breakevenTargetOf_ne_nil pts cash pp hne
  have hcash : cash ≤ 0 := by rw [htgt] at h; linarith
  have hguard : ¬ (2 ≤ pts.length ∧ 0 < cash) := by
    rintro ⟨_, hpos⟩; linarith
  simp only [computeBreakeven]
  rw [if_neg hguard]

/-- C2 amended witness: the single point `(0, 150000)` with net cash 0
meets its target 150000, and the estimator reports nothing. -/
theorem breakeven_first_value_meets_target_undetermined_witness :
    breakevenTargetOf [⟨0, 150000, "Purchase Price"⟩] 0 0 ≤ 150000 ∧
      computeBreakeven [⟨0, 150000, "Purchase Price"⟩] 0 0 = ⟨none, none, []⟩ :=
  ⟨by norm_num [breakevenTargetOf],
   breakeven_first_value_meets_target_undetermined
     [⟨0, 150000, "Purchase Price"⟩] 0 0 (by simp) (by norm_num [breakevenTargetOf, dfltPoint])⟩

/-- C3 counterexample: for points `[(0, 100), (1 day, 101)]` and net cash
invested 2 (target 102), the extrapolation branch fires, but the emitted
"beyond" point's value is `Math.round(target + rate × 2 years)` = 833,
not the exact `target + rate × 2 years` = 832.5 the claim states. -/
theorem breakeven_beyond_value_counterexample :
    ((computeBreakeven [⟨0, 100, "a"⟩, ⟨86400000, 101, "b"⟩] 2 0).projectedPoints.getD 1
        dfltPoint).value ≠
      breakevenTargetOf [⟨0, 100, "a"⟩, ⟨86400000, 101, "b"⟩] 2 0 +
        (101 - 100) / (86400000 - 0) * twoYearsMs := by
  norm_num [computeBreakeven, findStraddlePair, breakevenTargetOf, dfltPoint, floorDay,
    jsRound, dayMs, twoYearsMs, twentyFiveYearsMs]

/-- C3 amended: under the guard (≥ 2 points, positive net cash invested)
and with no straddling pair, the estimator computes
`rate = (lastValue − firstValue) / (lastTime − firstTime)` and
`duration = (target − lastValue) / rate`; exactly when the trend is
positive and `0 < duration < 25 years` it emits the projected breakeven at
the calendar day containing `lastTime + duration` plus one "beyond" point
at the day containing 2 years further out, whose value is
`Math.round(target + rate × 2 years)` (rounded to the nearest integer,
which is the one amendment to the claim); otherwise — flat or negative
trend, or duration out of bounds — no breakeven is reported. -/
theorem breakeven_extrapolation_amended (pts : List ChartPoint) (cash pp : ℚ)
    (h2 : 2 ≤ pts.length) (hc : 0 < cash)
    (hns : ∀ i, ¬ straddleAt (breakevenTargetOf pts cash pp) pts i) :
    (let tgt := breakevenTargetOf pts cash pp
     let F := pts.getD 0 dfltPoint
     let L := pts.getD (pts.length - 1) dfltPoint
     let rate := (L.value - F.value) / (L.date - F.date)
     let dur := (tgt - L.value) / rate
     (F.date < L.date ∧ F.value < L.value →
       (0 < dur ∧ dur < twentyFiveYearsMs →
         computeBreakeven pts cash pp =
           ⟨some (pts.length : ℚ), some (floorDay (L.date + dur)),
            [⟨floorDay (L.date + dur), tgt, "Capital Recovered (Projected)"⟩,
             ⟨floorDay (L.date + dur + twoYearsMs), jsRound (tgt + rate * twoYearsMs),
              "Projected"⟩]⟩) ∧
       (¬(0 < dur ∧ dur < twentyFiveYearsMs) →
         computeBreakeven pts cash pp = ⟨none, none, []⟩)) ∧
     (¬(F.date < L.date ∧ F.value < L.value) →
       computeBreakeven pts cash pp = ⟨none, none, []⟩)) := by
  intro tgt F L rate dur
  have hne : pts ≠ [] := by intro h; rw [h] at h2; simp at h2
  have htgt := breakevenTargetOf_ne_nil pts cash pp hne
  have hlt : (pts.getD 0 dfltPoint).value < breakevenTargetOf pts cash pp := by
    rw [htgt]; linarith
  have hstep : computeBreakeven pts cash pp =
      (if 0 < L.date - F.date ∧ F.value < L.value then
        if 0 < dur ∧ dur < twentyFiveYearsMs then
          ⟨some (pts.length : ℚ), some (floorDay (L.date + dur)),
           [⟨floorDay (L.date + dur), tgt, "Capital Recovered (Projected)"⟩,
            ⟨floorDay (L.date + dur + twoYearsMs), jsRound (tgt + rate * twoYearsMs),
             "Projected"⟩]⟩
        else ⟨none, none, []⟩
      else (⟨none, none, []⟩ : BreakevenResult)) := by
    simp only [computeBreakeven]
    rw [if_pos ⟨h2, hc⟩, if_neg (not_le.mpr hlt), findStraddle_none _ _ hns]
  constructor
  · rintro ⟨hd, hv⟩
    constructor
    · intro hdur
      rw [hstep, if_pos ⟨sub_pos.mpr hd, hv⟩, if_pos hdur]
    · intro hdur
      rw [hstep, if_pos ⟨sub_pos.mpr hd, hv⟩, if_neg hdur]
  · intro hdv
    have hneg : ¬(0 < L.date - F.date ∧ F.value < L.value) := by
      rintro ⟨hd1, hd2⟩; exact hdv ⟨sub_pos.mp hd1, hd2⟩
    rw [hstep, if_neg hneg]

/-- C3 amended witness: points `[(0, 100000), (10 days, 110000)]` with
net cash 40000 (target 140000): no straddle, positive trend, duration
30 days; the estimator projects breakeven at day 40 (= 3456000000 ms) and
a beyond point at day 770 with value `round(140000 + 730500) = 870500`. -/
theorem breakeven_extrapolation_amended_witness :
    computeBreakeven [⟨0, 100000, "a"⟩, ⟨864000000, 110000, "b"⟩] 40000 0 =
      ⟨some 2, some 3456000000,
       [⟨3456000000, 140000, "Capital Recovered (Projected)"⟩,
        ⟨66528000000, 870500, "Projected"⟩]⟩ := by
  have h := breakeven_extrapolation_amended [⟨0, 100000, "a"⟩, ⟨864000000, 110000, "b"⟩]
    40000 0 (by norm_num) (by norm_num)
    (no_straddle_of_ball _ _ (by
      intro i hi
      have hi2 : i < 2 := by simpa using hi
      interval_cases i <;> norm_num [straddleAt, breakevenTargetOf, dfltPoint]))
  obtain ⟨h1, -⟩ := h
  have h3 := (h1 (by norm_num [dfltPoint])).1 (by
    constructor <;>
      norm_num [breakevenTargetOf, dfltPoint, twentyFiveYearsMs])
  rw [h3]
  norm_num [breakevenTargetOf, dfltPoint, floorDay, jsRound, dayMs, twoYearsMs]

/-- C4 counterexample: for points `[(0, 0), (100 days, 100)]` with net
cash invested 150 (target 150), the extrapolation branch projects
breakeven at day 150 and emits the beyond point `(day 880, 881)` (date
truncated to a day, value rounded).  Re-running the estimator with that
emitted beyond point appended yields breakeven date day 149
(12873600000 ms), not day 150 (12960000000 ms): the round trip does not
reproduce the same breakeven date. -/
theorem breakeven_roundtrip_counterexample :
    (computeBreakeven [⟨0, 0, "a"⟩, ⟨8640000000, 100, "b"⟩] 150 0).projectedPoints.getD 1
        dfltPoint = ⟨76032000000, 881, "Projected"⟩ ∧
      (computeBreakeven [⟨0, 0, "a"⟩, ⟨8640000000, 100, "b"⟩, ⟨76032000000, 881, "Projected"⟩]
          150 0).breakevenDate ≠
        (computeBreakeven [⟨0, 0, "a"⟩, ⟨8640000000, 100, "b"⟩] 150 0).breakevenDate := by
  constructor <;>
    norm_num [computeBreakeven, findStraddlePair, breakevenTargetOf, dfltPoint, floorDay,
      jsRound, dayMs, twoYearsMs, twentyFiveYearsMs]

/-- C4 amended: the round trip is exact when the beyond point is fed back
at full precision — date `lastTime + duration + 2 years` not truncated to
a day, value `target + rate × 2 years` not rounded.  Then re-running the
estimator on the appended sequence takes the interpolation branch at the
new last pair and reproduces exactly the original projected breakeven
date.  (With the code's day-truncated, rounded beyond point the date can
shift, as the counterexample shows.) -/
theorem breakeven_roundtrip_exact_amended (pts : List ChartPoint) (cash pp tgt rate dur : ℚ)
    (h2 : 2 ≤ pts.length) (hc : 0 < cash)
    (htgt : tgt = breakevenTargetOf pts cash pp)
    (hrate : rate = ((pts.getD (pts.length - 1) dfltPoint).value -
        (pts.getD 0 dfltPoint).value) /
      ((pts.getD (pts.length - 1) dfltPoint).date - (pts.getD 0 dfltPoint).date))
    (hdur : dur = (tgt - (pts.getD (pts.length - 1) dfltPoint).value) / rate)
    (hns : ∀ i, ¬ straddleAt tgt pts i)
    (hd : (pts.getD 0 dfltPoint).date < (pts.getD (pts.length - 1) dfltPoint).date)
    (hv : (pts.getD 0 dfltPoint).value < (pts.getD (pts.length - 1) dfltPoint).value)
    (hdur0 : 0 < dur) (hdur25 : dur < twentyFiveYearsMs) :
    (computeBreakeven
        (pts ++ [⟨(pts.getD (pts.length - 1) dfltPoint).date + dur + twoYearsMs,
                  tgt + rate * twoYearsMs, "Projected"⟩]) cash pp).breakevenDate =
      (computeBreakeven pts cash pp).breakevenDate := by
  subst hdur hrate htgt
  set F := pts.getD 0 dfltPoint with hF
  set L := pts.getD (pts.length - 1) dfltPoint with hL
  set tgt := breakevenTargetOf pts cash pp with htgtd
  set rate := (L.value - F.value) / (L.date - F.date) with hrated
  set dur := (tgt - L.value) / rate with hdurd
  have hne : pts ≠ [] := by intro h; rw [h] at h2; simp at h2
  have hW : 0 < rate := by rw [hrated]; exact div_pos (sub_pos.mpr hv) (sub_pos.mpr hd)
  have hWne : rate ≠ 0 := ne_of_gt hW
  have h2y : (0 : ℚ) < twoYearsMs := by norm_num [twoYearsMs]
  have hTL : tgt - L.value = dur * rate := by
    rw [hdurd, div_mul_cancel₀ _ hWne]
  have hLv : L.value < tgt := by nlinarith [mul_pos hdur0 hW]
  have hlt : F.value < tgt := by
    rw [htgtd, breakevenTargetOf_ne_nil pts cash pp hne, ← hF]; linarith
  -- the original run: extrapolation branch
  have hstepR : computeBreakeven pts cash pp =
      ⟨some (pts.length : ℚ), some (floorDay (L.date + dur)),
       [⟨floorDay (L.date + dur), tgt, "Capital Recovered (Projected)"⟩,
        ⟨floorDay (L.date + dur + twoYearsMs), jsRound (tgt + rate * twoYearsMs),
         "Projected"⟩]⟩ := by
    simp only [computeBreakeven]
    rw [if_pos ⟨h2, hc⟩, if_neg (not_le.mpr hlt), findStraddle_none _ _ hns,
      if_pos ⟨sub_pos.mpr hd, hv⟩, if_pos ⟨hdur0, hdur25⟩]
  -- the re-run: interpolation branch at the appended pair
  set x : ChartPoint := ⟨L.date + dur + twoYearsMs, tgt + rate * twoYearsMs, "Projected"⟩
    with hx
  have hlen' : (pts ++ [x]).length = pts.length + 1 := by simp
  have htgt' : breakevenTargetOf (pts ++ [x]) cash pp = tgt := by
    rw [breakevenTargetOf_append pts x cash pp hne, htgtd]
  have hgetL : (pts ++ [x]).getD (pts.length - 1) dfltPoint = L := by
    rw [List.getD_append _ _ _ _ (by omega), hL]
  have hgetx : (pts ++ [x]).getD pts.length dfltPoint = x := by
    rw [List.getD_append_right _ _ _ _ (le_refl _)]
    simp
  have hidx : pts.length - 1 + 1 = pts.length := by omega
  have hstr : straddleAt tgt (pts ++ [x]) (pts.length - 1) := by
    refine ⟨by rw [hlen']; omega, ?_, ?_⟩
    · rw [hgetL]; exact hLv
    · rw [hidx, hgetx, hx]
      show tgt ≤ tgt + rate * twoYearsMs
      nlinarith [mul_pos hW h2y]
  have hmin : ∀ j, j < pts.length - 1 → ¬ straddleAt tgt (pts ++ [x]) j := by
    intro j hj hstrj
    rw [straddleAt_append_left tgt pts x j (by omega)] at hstrj
    exact hns j hstrj
  have hfs := findStraddle_first tgt (pts ++ [x]) (pts.length - 1) hstr hmin
  rw [hgetL, hidx, hgetx] at hfs
  have hfs' : findStraddlePair (breakevenTargetOf (pts ++ [x]) cash pp) (pts ++ [x]) =
      some (pts.length - 1, L, x) := by rw [htgt']; exact hfs
  have hlhs := computeBreakeven_interp (pts ++ [x]) cash pp (by rw [hlen']; omega) hc
    (pts.length - 1) L x hfs'
  rw [hlhs, hstepR]
  simp only [htgt', hx]
  have hd2y : dur + twoYearsMs ≠ 0 := by positivity
  have hdate : L.date + (tgt - L.value) / (tgt + rate * twoYearsMs - L.value) *
      (L.date + dur + twoYearsMs - L.date) = L.date + dur := by
    have hden : tgt + rate * twoYearsMs - L.value = rate * (dur + twoYearsMs) := by
      rw [mul_add]; linarith [hTL]
    rw [hden, hTL]
    rw [mul_comm dur rate, mul_div_mul_left _ _ hWne]
    have harg : L.date + dur + twoYearsMs - L.date = dur + twoYearsMs := by ring
    rw [harg, div_mul_cancel₀ _ hd2y]
  rw [hdate]

/-- C4 amended witness: for points `[(0, 0), (100 days, 100)]`, net cash
150, the exact beyond point is `(76075200000, 880.5)`; appending it and
re-running yields the same breakeven date. -/
theorem breakeven_roundtrip_exact_amended_witness :
    (computeBreakeven [⟨0, 0, "a"⟩, ⟨8640000000, 100, "b"⟩, ⟨76075200000, 1761/2, "Projected"⟩]
        150 0).breakevenDate =
      (computeBreakeven [⟨0, 0, "a"⟩, ⟨8640000000, 100, "b"⟩] 150 0).breakevenDate := by
  have h := breakeven_roundtrip_exact_amended [⟨0, 0, "a"⟩, ⟨8640000000, 100, "b"⟩] 150 0
    150 (1/86400000) 4320000000 (by norm_num) (by norm_num)
    (by norm_num [breakevenTargetOf]) (by norm_num [dfltPoint]) (by norm_num [dfltPoint])
    (no_straddle_of_ball 150 [⟨0, 0, "a"⟩, ⟨8640000000, 100, "b"⟩] (by
      intro i hi
      have hi2 : i < 2 := by simpa using hi
      interval_cases i <;> norm_num [straddleAt, dfltPoint]))
    (by norm_num [dfltPoint]) (by norm_num [dfltPoint]) (by norm_num)
    (by norm_num [twentyFiveYearsMs])
  norm_num [dfltPoint, twoYearsMs] at h
  exact h

/-- Every run of the estimator lands in one of three shapes: nothing
reported; an index and a date with no projected points (the "already
achieved" or interpolation branches); or the extrapolation output with its
two projected points.  The latter two only occur under the guard. -/
lemma computeBreakeven_shape (pts : List ChartPoint) (cash pp : ℚ) :
    computeBreakeven pts cash pp = ⟨none, none, []⟩ ∨
    (∃ q d, computeBreakeven pts cash pp = ⟨some q, some d, []⟩ ∧
      2 ≤ pts.length ∧ 0 < cash) ∨
    (∃ d bv bd, computeBreakeven pts cash pp =
        ⟨some (pts.length : ℚ), some d,
         [⟨d, breakevenTargetOf pts cash pp, "Capital Recovered (Projected)"⟩,
          ⟨bd, bv, "Projected"⟩]⟩ ∧
      2 ≤ pts.length ∧ 0 < cash) := by
  by_cases hg : 2 ≤ pts.length ∧ 0 < cash
  · by_cases hach : breakevenTargetOf pts cash pp ≤ (pts.getD 0 dfltPoint).value
    · right; left
      refine ⟨0, (pts.getD 0 dfltPoint).date, ?_, hg.1, hg.2⟩
      simp only [computeBreakeven]
      rw [if_pos hg, if_pos hach]
    · cases hfs : findStraddlePair (breakevenTargetOf pts cash pp) pts with
      | some v =>
        obtain ⟨i, a, b⟩ := v
        right; left
        exact ⟨_, _, computeBreakeven_interp pts cash pp hg.1 hg.2 i a b hfs, hg.1, hg.2⟩
      | none =>
        simp only [computeBreakeven]
        rw [if_pos hg, if_neg hach, hfs]
        split
        next i a b heq => simp at heq
        next heq =>
          split
          · split
            · right; right; exact ⟨_, _, _, rfl, hg.1, hg.2⟩
            · left; rfl
          · left; rfl
  · left
    simp only [computeBreakeven]
    rw [if_neg hg]

/-- C6: every division in the estimator is guarded.  (1) Any pair the
scan returns satisfies `v0 < target ≤ v1`, so the interpolation divisor
`v1 − v0` is strictly positive; (2) an equal-valued adjacent pair is never
selected — it is a no-match and scanning continues past it; (3) under the
rate-branch guard (`lastTime > firstTime`, `lastValue > firstValue`) the
divisor `lastTime − firstTime` is positive and the computed rate is
strictly positive, so dividing by it is safe; (4) whenever no breakeven
index is produced the estimator returns the coherent "undetermined"
result (no date, no projected points) rather than anything partial. -/
theorem breakeven_division_guards :
    (∀ (tgt : ℚ) (pts : List ChartPoint) (i : ℕ) (a b : ChartPoint),
        findStraddlePair tgt pts = some (i, a, b) →
          a.value < tgt ∧ tgt ≤ b.value ∧ 0 < b.value - a.value) ∧
    (∀ (tgt : ℚ) (pts : List ChartPoint) (i : ℕ) (a b : ChartPoint),
        a.value = b.value → findStraddlePair tgt pts ≠ some (i, a, b)) ∧
    (∀ F L : ChartPoint, 0 < L.date - F.date → F.value < L.value →
        0 < (L.value - F.value) / (L.date - F.date)) ∧
    (∀ (pts : List ChartPoint) (cash pp : ℚ),
        (computeBreakeven pts cash pp).breakevenXIndex = none →
          computeBreakeven pts cash pp = ⟨none, none, []⟩) := by
  refine ⟨?_, ?_, ?_, ?_⟩
  · intro tgt pts i a b h
    obtain ⟨h1, h2⟩ := findStraddle_straddles tgt pts i a b h
    exact ⟨h1, h2, by linarith⟩
  · intro tgt pts i a b heq h
    obtain ⟨h1, h2⟩ := findStraddle_straddles tgt pts i a b h
    rw [heq] at h1
    linarith
  · intro F L hdt hval
    exact div_pos (by linarith) hdt
  · intro pts cash pp h
    obtain hsh | ⟨q, d, hsh, -, -⟩ | ⟨d, bv, bd, hsh, -, -⟩ := computeBreakeven_shape pts cash pp
    · exact hsh
    · rw [hsh] at h; simp at h
    · rw [hsh] at h; simp at h

/-- C6 witness: at the concrete straddle instance `target 140000` over
`[(0, 100000), (ten days, 150000)]` the scan's selected pair satisfies the
straddle bounds with positive divisor; the concrete rate divisor is
positive; and on the empty input the estimator reports the coherent
"undetermined" result. -/
theorem breakeven_division_guards_witness :
    ((⟨0, 100000, "a"⟩ : ChartPoint).value < 140000 ∧
      (140000 : ℚ) ≤ (⟨864000000, 150000, "b"⟩ : ChartPoint).value ∧
      (0 : ℚ) < (⟨864000000, 150000, "b"⟩ : ChartPoint).value -
        (⟨0, 100000, "a"⟩ : ChartPoint).value) ∧
    (0 : ℚ) < ((⟨864000000, 150000, "b"⟩ : ChartPoint).value -
        (⟨0, 100000, "a"⟩ : ChartPoint).value) /
      ((⟨864000000, 150000, "b"⟩ : ChartPoint).date - (⟨0, 100000, "a"⟩ : ChartPoint).date) ∧
    computeBreakeven [] 0 0 = ⟨none, none, []⟩ :=
  ⟨breakeven_division_guards.1 140000 [⟨0, 100000, "a"⟩, ⟨864000000, 150000, "b"⟩] 0
      ⟨0, 100000, "a"⟩ ⟨864000000, 150000, "b"⟩ (by norm_num [findStraddlePair]),
   breakeven_division_guards.2.2.1 ⟨0, 100000, "a"⟩ ⟨864000000, 150000, "b"⟩
      (by norm_num) (by norm_num),
   breakeven_division_guards.2.2.2 [] 0 0 (by norm_num [computeBreakeven])⟩

/-- C10: the projected-points list always has length 0 or 2, never 1;
when it is non-empty, the first projected point's value is exactly the
breakeven target, a breakeven date is defined, and the guard held: the
known sequence has at least two points and net cash invested is strictly
positive. -/
theorem projected_points_invariant (pts : List ChartPoint) (cash pp : ℚ) :
    ((computeBreakeven pts cash pp).projectedPoints.length = 0 ∨
      (computeBreakeven pts cash pp).projectedPoints.length = 2) ∧
    ((computeBreakeven pts cash pp).projectedPoints ≠ [] →
      ((computeBreakeven pts cash pp).projectedPoints.getD 0 dfltPoint).value =
          breakevenTargetOf pts cash pp ∧
        (computeBreakeven pts cash pp).breakevenDate ≠ none ∧
        2 ≤ pts.length ∧ 0 < cash) := by
  obtain hsh | ⟨q, d, hsh, hl, hcash⟩ | ⟨d, bv, bd, hsh, hl, hcash⟩ :=
    computeBreakeven_shape pts cash pp
  · rw [hsh]; simp
  · rw [hsh]; simp
  · rw [hsh]; simp [hl, hcash]

/-- C10 witness: on the extrapolating input `[(0, 100000), (ten days,
110000)]` with net cash 40000 the projected list is non-empty, so its
head's value is the target 140000, a date is defined, and the guard
facts hold. -/
theorem projected_points_invariant_witness :
    ((computeBreakeven [⟨0, 100000, "a"⟩, ⟨864000000, 110000, "b"⟩] 40000
        0).projectedPoints.getD 0 dfltPoint).value =
        breakevenTargetOf [⟨0, 100000, "a"⟩, ⟨864000000, 110000, "b"⟩] 40000 0 ∧
      (computeBreakeven [⟨0, 100000, "a"⟩, ⟨864000000, 110000, "b"⟩] 40000
          0).breakevenDate ≠ none ∧
      2 ≤ ([⟨0, 100000, "a"⟩, ⟨864000000, 110000, "b"⟩] : List ChartPoint).length ∧
      (0 : ℚ) < 40000 :=
  (projected_points_invariant [⟨0, 100000, "a"⟩, ⟨864000000, 110000, "b"⟩] 40000 0).2
    (by
      norm_num [computeBreakeven, findStraddlePair, breakevenTargetOf, dfltPoint,
        floorDay, jsRound, dayMs, twoYearsMs, twentyFiveYearsMs]
      simp)

/-
  ── Ledger model ──────────────────────────────────────────────────────────

  Rows fetched from the `transactions` table, as consumed by the dashboard
  pages (`src/unnamed/part_000`, `src/unnamed/part_001`).  A row's amount
  field (`"Item amount inc VAT"`) is dynamically typed; the other fields
  used by the computations are strings.
-/

/-- A dynamically-typed field value.  `num q` is a field whose `Number(…)`
coercion produces the number `q` (a JSON number, or a numeric string);
`str s` is non-numeric text (`Number` of it is NaN); `undef` is an absent
field (`Number(undefined)` is NaN).  `toString q` as the display string of
a number abstracts JavaScript's number-to-string conversion; none of the
properties proved below depend on its exact digits. -/
inductive JsValue where
  | str (s : String)
  | num (q : ℚ)
  | undef
deriving DecidableEq, Repr

/-- `Number(v)`: `some q` when the coercion produces a number, `none` when
it produces NaN (absent or non-numeric field). -/
def jsToNumber : JsValue → Option ℚ
  | .num q => some q
  | .str _ => none
  | .undef => none

/-- `String(v)`. -/
def jsToString : JsValue → String
  | .str s => s
  | .num q => toString q
  | .undef => "undefined"

/-- A ledger row: the five columns the table renders, filters and sorts
(`'Item date'`, `'Property address'`, `'Item description'`, `'Item type'`,
`'Item amount inc VAT'`). -/
structure TxnRow where
  itemDate : String
  propertyAddress : String
  itemDescription : String
  itemType : String
  itemAmount : JsValue
deriving DecidableEq, Repr

/-- The five filterable / sortable columns of the ledger table. -/
inductive Column where
  | itemDate | propertyAddress | itemDescription | itemType | itemAmount
deriving DecidableEq, Repr

/-- `row[key]` for a column key. -/
def rowValue (r : TxnRow) : Column → JsValue
  | .itemDate => .str r.itemDate
  | .propertyAddress => .str r.propertyAddress
  | .itemDescription => .str r.itemDescription
  | .itemType => .str r.itemType
  | .itemAmount => r.itemAmount

/-- The designated income category (`'Rent Paid'`). -/
def incomeCategory : String := "Rent Paid"

/-- JavaScript `+` on possibly-NaN numbers: NaN propagates. -/
def nanAdd : Option ℚ → Option ℚ → Option ℚ
  | some a, some b => some (a + b)
  | _, _ => none

/-- `rows.reduce((sum, row) => sum + Number(row['Item amount inc VAT']), 0)`. -/
def sumAmounts (rows : List TxnRow) : Option ℚ :=
  rows.foldl (fun s r => nanAdd s (jsToNumber r.itemAmount)) (some 0)

/-- Income total: sum of amounts of rows whose `'Item type'` is
`'Rent Paid'` (`part_000:106–108`, `part_001:175–177`). -/
def totalIncome (rows : List TxnRow) : Option ℚ :=
  sumAmounts (rows.filter (fun r => r.itemType == incomeCategory))

/-- Expense total: sum of amounts of all other rows
(`part_000:110–112`, `part_001:179–181`). -/
def totalExpenses (rows : List TxnRow) : Option ℚ :=
  sumAmounts (rows.filter (fun r => r.itemType != incomeCategory))

/-- `net = totalIncome + totalExpenses` (`part_000:114`, `part_001:183`). -/
def net (rows : List TxnRow) : Option ℚ :=
  nanAdd (totalIncome rows) (totalExpenses rows)

/-- `Number(row['Item amount inc VAT']) || 0`: the breakdown's coercion
of an amount, NaN falling back to zero (`part_000:118`, `part_001:189`). -/
def amountOrZero (r : TxnRow) : ℚ :=
  (jsToNumber r.itemAmount).getD 0

/-- One step of the `totalsByType` accumulator object:
`if (!acc[type]) acc[type] = 0; acc[type] += amount` — add to the entry of
the type when present, else append a new entry (object keys keep insertion
order). -/
def insertAdd : List (String × ℚ) → String → ℚ → List (String × ℚ)
  | [], ty, v => [(ty, v)]
  | (k, t) :: rest, ty, v =>
      if k = ty then (k, t + v) :: rest else (k, t) :: insertAdd rest ty v

/-- `totalsByType`: group rows by `'Item type'`, summing coerced amounts
(`part_000:116–122`, `part_001:186–192`). -/
def totalsByType (rows : List TxnRow) : List (String × ℚ) :=
  rows.foldl (fun acc r => insertAdd acc r.itemType (amountOrZero r)) []

/-- The sum of all per-category breakdown totals, as the breakdown
table's footer computes it:
`breakdownRows.reduce((sum, row) => sum + row.total, 0)`. -/
def breakdownSum (rows : List TxnRow) : ℚ :=
  (totalsByType rows).foldl (fun s kv => s + kv.2) 0

lemma nanAdd_none_right (s : Option ℚ) : nanAdd s none = none := by
  cases s <;> rfl

lemma nanAdd_none_left (s : Option ℚ) : nanAdd none s = none := by
  cases s <;> rfl

lemma foldl_sumAmounts_none (rows : List TxnRow) :
    rows.foldl (fun s r => nanAdd s (jsToNumber r.itemAmount)) none = none := by
  induction rows with
  | nil => rfl
  | cons y ys ih =>
    rw [List.foldl_cons, nanAdd_none_left]
    exact ih

lemma foldl_sumAmounts_some (rows : List TxnRow)
    (h : ∀ r ∈ rows, (jsToNumber r.itemAmount).isSome) :
    ∀ init : ℚ, rows.foldl (fun s r => nanAdd s (jsToNumber r.itemAmount)) (some init) =
      some (init + (rows.map amountOrZero).sum) := by
  induction rows with
  | nil => intro init; simp
  | cons y ys ih =>
    intro init
    obtain ⟨qy, hqy⟩ := Option.isSome_iff_exists.mp (h y (List.mem_cons_self y ys))
    rw [List.foldl_cons]
    have hstep : nanAdd (some init) (jsToNumber y.itemAmount) = some (init + qy) := by
      rw [hqy]; rfl
    rw [hstep, ih (fun r hr => h r (List.mem_cons_of_mem y hr)) (init + qy)]
    simp [amountOrZero, hqy]
    ring_nf

/-- With every amount numeric, the running reduce produces the plain sum
of coerced amounts. -/
lemma sumAmounts_some (rows : List TxnRow)
    (h : ∀ r ∈ rows, (jsToNumber r.itemAmount).isSome) :
    sumAmounts rows = some ((rows.map amountOrZero).sum) := by
  rw [sumAmounts, foldl_sumAmounts_some rows h 0, zero_add]

lemma foldl_sumAmounts_mem_none (rows : List TxnRow) (r : TxnRow)
    (hr : r ∈ rows) (hnan : jsToNumber r.itemAmount = none) :
    ∀ acc : Option ℚ, rows.foldl (fun s r => nanAdd s (jsToNumber r.itemAmount)) acc = none := by
  induction rows with
  | nil => cases hr
  | cons y ys ih =>
    intro acc
    rw [List.foldl_cons]
    rcases List.mem_cons.mp hr with rfl | hmem
    · rw [hnan, nanAdd_none_right]
      exact foldl_sumAmounts_none ys
    · exact ih hmem _

/-- One NaN amount in scope poisons the whole running sum. -/
lemma sumAmounts_none_of_mem (rows : List TxnRow) (r : TxnRow)
    (hr : r ∈ rows) (hnan : jsToNumber r.itemAmount = none) :
    sumAmounts rows = none :=
  foldl_sumAmounts_mem_none rows r hr hnan (some 0)

lemma foldl_add_snd (l : List (String × ℚ)) :
    ∀ a : ℚ, l.foldl (fun s kv => s + kv.2) a = a + (l.map Prod.snd).sum := by
  induction l with
  | nil => intro a; simp
  | cons kv rest ih =>
    intro a
    rw [List.foldl_cons, ih]
    simp
    ring

lemma insertAdd_snd_sum (acc : List (String × ℚ)) (ty : String) (v : ℚ) :
    ((insertAdd acc ty v).map Prod.snd).sum = (acc.map Prod.snd).sum + v := by
  induction acc with
  | nil => simp [insertAdd]
  | cons kv rest ih =>
    by_cases hk : kv.1 = ty
    · obtain ⟨k, t⟩ := kv
      simp only at hk
      rw [insertAdd, if_pos hk]
      simp
      ring
    · obtain ⟨k, t⟩ := kv
      simp only at hk
      rw [insertAdd, if_neg hk]
      simp [ih]
      ring

lemma totalsByType_snd_sum (rows : List TxnRow) :
    ∀ acc : List (String × ℚ),
      ((rows.foldl (fun acc r => insertAdd acc r.itemType (amountOrZero r)) acc).map
        Prod.snd).sum = (acc.map Prod.snd).sum + (rows.map amountOrZero).sum := by
  induction rows with
  | nil => intro acc; simp
  | cons y ys ih =>
    intro acc
    rw [List.foldl_cons, ih, insertAdd_snd_sum]
    simp
    ring

/-- The breakdown footer total is exactly the sum of all coerced amounts. -/
lemma breakdownSum_eq (rows : List TxnRow) :
    breakdownSum rows = (rows.map amountOrZero).sum := by
  rw [breakdownSum, foldl_add_snd, totalsByType, totalsByType_snd_sum]
  simp

/-- Splitting by income category partitions the coerced-amount sum. -/
lemma sum_filter_income_add_expenses (rows : List TxnRow) :
    ((rows.filter (fun r => r.itemType == incomeCategory)).map amountOrZero).sum +
      ((rows.filter (fun r => r.itemType != incomeCategory)).map amountOrZero).sum =
      (rows.map amountOrZero).sum := by
  have hperm := List.filter_append_perm (fun r => r.itemType == incomeCategory) rows
  have hsum := (hperm.map amountOrZero).sum_eq
  rw [List.map_append, List.sum_append] at hsum
  exact hsum

/-- C7 counterexample: a single `'Rent Paid'` record whose amount field is
absent.  Net is NaN (the income reduce propagates `Number(undefined)`),
while the breakdown total coerces the amount to zero, so Net does not
equal the sum of the per-category breakdown totals. -/
theorem accounting_identity_counterexample :
    net [⟨"2024-01-01", "1 High St", "rent", "Rent Paid", JsValue.undef⟩] ≠
      some (breakdownSum [⟨"2024-01-01", "1 High St", "rent", "Rent Paid", JsValue.undef⟩]) := by
  with_unfolding_all decide

/-- C7 amended: for every non-empty record set all of whose amount fields
coerce to numbers, the income total plus the expense total is Net, and Net
equals the sum of all per-category breakdown totals.  (With a
non-numeric amount Net is NaN while the breakdown coerces that amount to
zero, so the unrestricted claim fails — see the counterexample.) -/
theorem accounting_identity_amended (rows : List TxnRow) (_hne : rows ≠ [])
    (hnum : ∀ r ∈ rows, (jsToNumber r.itemAmount).isSome) :
    nanAdd (totalIncome rows) (totalExpenses rows) = net rows ∧
      net rows = some (breakdownSum rows) := by
  refine ⟨rfl, ?_⟩
  have hi : ∀ r ∈ rows.filter (fun r => r.itemType == incomeCategory),
      (jsToNumber r.itemAmount).isSome :=
    fun r hr => hnum r (List.mem_of_mem_filter hr)
  have he : ∀ r ∈ rows.filter (fun r => r.itemType != incomeCategory),
      (jsToNumber r.itemAmount).isSome :=
    fun r hr => hnum r (List.mem_of_mem_filter hr)
  rw [net, totalIncome, totalExpenses, sumAmounts_some _ hi, sumAmounts_some _ he,
    breakdownSum_eq, ← sum_filter_income_add_expenses rows]
  rfl

/-- C7 amended witness: a rent record of 1200 and a repair record of −300:
income 1200, expenses −300, net 900 = breakdown sum. -/
theorem accounting_identity_amended_witness :
    net [⟨"2024-01-01", "1 High St", "rent", "Rent Paid", JsValue.num 1200⟩,
         ⟨"2024-01-02", "1 High St", "fix", "Repairs", JsValue.num (-300)⟩] =
      some (breakdownSum
        [⟨"2024-01-01", "1 High St", "rent", "Rent Paid", JsValue.num 1200⟩,
         ⟨"2024-01-02", "1 High St", "fix", "Repairs", JsValue.num (-300)⟩]) :=
  (accounting_identity_amended
    [⟨"2024-01-01", "1 High St", "rent", "Rent Paid", JsValue.num 1200⟩,
     ⟨"2024-01-02", "1 High St", "fix", "Repairs", JsValue.num (-300)⟩]
    (by simp) (by intro r hr; fin_cases hr <;> rfl)).2

/-- Replacing a NaN amount by the number zero, record-wise. -/
def zeroIfNaN (r : TxnRow) : TxnRow :=
  if (jsToNumber r.itemAmount).isSome then r else { r with itemAmount := JsValue.num 0 }

lemma zeroIfNaN_itemType (r : TxnRow) : (zeroIfNaN r).itemType = r.itemType := by
  rw [zeroIfNaN]; split <;> rfl

lemma zeroIfNaN_amountOrZero (r : TxnRow) : amountOrZero (zeroIfNaN r) = amountOrZero r := by
  cases h : jsToNumber r.itemAmount with
  | some q => rw [zeroIfNaN, if_pos (by simp [h])]
  | none =>
    rw [zeroIfNaN, if_neg (by simp [h])]
    show (jsToNumber (JsValue.num 0)).getD 0 = (jsToNumber r.itemAmount).getD 0
    rw [h]
    rfl

/-- C5 counterexample: a single `'Rent Paid'` record with an absent amount
field.  The claim says every displayed total treats it as zero (the income
total would be 0, a number); the code's income reduce instead propagates
NaN. -/
theorem missing_amount_counterexample :
    totalIncome [⟨"2024-01-01", "1 High St", "rent", "Rent Paid", JsValue.undef⟩] = none ∧
      totalIncome [⟨"2024-01-01", "1 High St", "rent", "Rent Paid", JsValue.undef⟩] ≠
        some 0 := by
  with_unfolding_all decide

/-- C5 amended: records with absent or non-numeric amounts are treated as
zero only in the breakdown-by-type totals (zeroing such an amount leaves
the whole breakdown unchanged); the income, expense and net totals instead
propagate NaN whenever such a record is in their scope.  When every amount
is numeric, all three totals are numbers. -/
theorem missing_amount_coercion_amended (rows : List TxnRow) :
    totalsByType (rows.map zeroIfNaN) = totalsByType rows ∧
      ((∀ r ∈ rows, (jsToNumber r.itemAmount).isSome) →
        (totalIncome rows).isSome ∧ (totalExpenses rows).isSome ∧ (net rows).isSome) ∧
      (∀ r ∈ rows, jsToNumber r.itemAmount = none → r.itemType = incomeCategory →
        totalIncome rows = none) ∧
      (∀ r ∈ rows, jsToNumber r.itemAmount = none → r.itemType ≠ incomeCategory →
        totalExpenses rows = none) := by
  refine ⟨?_, ?_, ?_, ?_⟩
  · rw [totalsByType, totalsByType]
    rw [List.foldl_map]
    congr 1
    funext acc r
    rw [zeroIfNaN_itemType, zeroIfNaN_amountOrZero]
  · intro hnum
    have hi : ∀ r ∈ rows.filter (fun r => r.itemType == incomeCategory),
        (jsToNumber r.itemAmount).isSome :=
      fun r hr => hnum r (List.mem_of_mem_filter hr)
    have he : ∀ r ∈ rows.filter (fun r => r.itemType != incomeCategory),
        (jsToNumber r.itemAmount).isSome :=
      fun r hr => hnum r (List.mem_of_mem_filter hr)
    rw [net, totalIncome, totalExpenses, sumAmounts_some _ hi, sumAmounts_some _ he]
    exact ⟨rfl, rfl, rfl⟩
  · intro r hr hnan hty
    exact sumAmounts_none_of_mem _ r
      (List.mem_filter.mpr ⟨hr, by simp [hty, incomeCategory]⟩) hnan
  · intro r hr hnan hty
    exact sumAmounts_none_of_mem _ r
      (List.mem_filter.mpr ⟨hr, by simp [bne, hty]⟩) hnan

/-- C5 amended witness: for a missing-amount rent record next to a numeric
repair record, zeroing the missing amount leaves the breakdown unchanged,
while the income total is NaN. -/
theorem missing_amount_coercion_amended_witness :
    totalsByType
        ([⟨"2024-01-01", "1 High St", "rent", "Rent Paid", JsValue.undef⟩,
          ⟨"2024-01-02", "1 High St", "fix", "Repairs", JsValue.num (-50)⟩].map zeroIfNaN) =
      totalsByType
        [⟨"2024-01-01", "1 High St", "rent", "Rent Paid", JsValue.undef⟩,
         ⟨"2024-01-02", "1 High St", "fix", "Repairs", JsValue.num (-50)⟩] ∧
    totalIncome
        [⟨"2024-01-01", "1 High St", "rent", "Rent Paid", JsValue.undef⟩,
         ⟨"2024-01-02", "1 High St", "fix", "Repairs", JsValue.num (-50)⟩] = none :=
  ⟨(missing_amount_coercion_amended
      [⟨"2024-01-01", "1 High St", "rent", "Rent Paid", JsValue.undef⟩,
       ⟨"2024-01-02", "1 High St", "fix", "Repairs", JsValue.num (-50)⟩]).1,
   (missing_amount_coercion_amended
      [⟨"2024-01-01", "1 High St", "rent", "Rent Paid", JsValue.undef⟩,
       ⟨"2024-01-02", "1 High St", "fix", "Repairs", JsValue.num (-50)⟩]).2.2.1
      ⟨"2024-01-01", "1 High St", "rent", "Rent Paid", JsValue.undef⟩
      (by simp) rfl rfl⟩

/-
  ── Ledger filtering (`part_000:128–141`) ─────────────────────────────────

  `startDate` / `endDate` are the page's date inputs (the empty string
  means unset, as `if (startDate)` tests truthiness); `filters` maps a
  column to the multi-select's chosen strings, applied only when
  non-empty.  Dates are compared as `'YYYY-MM-DD'` strings.
-/

/-- The sequential filter pipeline of `part_000:129–141`: copy the data,
drop rows before `startDate` (when set), drop rows after `endDate` (when
set), then for each column's non-empty multi-select keep only rows whose
stringified value is among the selected strings. -/
def applyFilters (startDate endDate : String) (filters : List (Column × List String))
    (data : List TxnRow) : List TxnRow :=
  let d1 := if startDate = "" then data
    else data.filter (fun r => startDate ≤ r.itemDate)
  let d2 := if endDate = "" then d1
    else d1.filter (fun r => r.itemDate ≤ endDate)
  filters.foldl
    (fun acc kv =>
      if 0 < kv.2.length then
        acc.filter (fun r => kv.2.contains (jsToString (rowValue r kv.1)))
      else acc)
    d2

/-- A record satisfies every active filter: date ≥ start when set,
date ≤ end when set, and for each column with a non-empty multi-select
the record's stringified value for that column is among the selected
strings. -/
def passesFilters (startDate endDate : String) (filters : List (Column × List String))
    (r : TxnRow) : Prop :=
  (startDate ≠ "" → startDate ≤ r.itemDate) ∧
    (endDate ≠ "" → r.itemDate ≤ endDate) ∧
    ∀ kv ∈ filters, kv.2 ≠ [] → jsToString (rowValue r kv.1) ∈ kv.2

instance (startDate endDate : String) (filters : List (Column × List String)) (r : TxnRow) :
    Decidable (passesFilters startDate endDate filters r) := by
  unfold passesFilters; infer_instance

lemma mem_foldl_multiselect (filters : List (Column × List String)) (r : TxnRow) :
    ∀ d : List TxnRow,
      r ∈ filters.foldl
          (fun acc kv =>
            if 0 < kv.2.length then
              acc.filter (fun r => kv.2.contains (jsToString (rowValue r kv.1)))
            else acc) d ↔
        r ∈ d ∧ ∀ kv ∈ filters, kv.2 ≠ [] → jsToString (rowValue r kv.1) ∈ kv.2 := by
  induction filters with
  | nil => intro d; simp
  | cons kv rest ih =>
    intro d
    rw [List.foldl_cons, ih]
    by_cases hk : 0 < kv.2.length
    · rw [if_pos hk, List.mem_filter]
      constructor
      · rintro ⟨⟨hd, hsel⟩, hrest⟩
        refine ⟨hd, ?_⟩
        intro kv' hkv'
        rcases List.mem_cons.mp hkv' with rfl | hmem
        · intro _; exact List.elem_iff.mp hsel
        · exact hrest kv' hmem
      · rintro ⟨hd, hall⟩
        refine ⟨⟨hd, ?_⟩, fun kv' hmem => hall kv' (List.mem_cons_of_mem kv hmem)⟩
        exact List.elem_iff.mpr
          (hall kv (List.mem_cons_self kv rest) (by intro he; rw [he] at hk; simp at hk))
    · rw [if_neg hk]
      have hkv2 : kv.2 = [] := by
        cases h : kv.2 with
        | nil => rfl
        | cons a l => rw [h] at hk; simp at hk
      constructor
      · rintro ⟨hd, hrest⟩
        refine ⟨hd, ?_⟩
        intro kv' hkv'
        rcases List.mem_cons.mp hkv' with rfl | hmem
        · intro he; exact absurd hkv2 he
        · exact hrest kv' hmem
      · rintro ⟨hd, hall⟩
        exact ⟨hd, fun kv' hmem => hall kv' (List.mem_cons_of_mem kv hmem)⟩

/-- C8: a record is in the filtered set iff it is in the data and
satisfies every active filter — date ≥ start when set, date ≤ end when
set, and membership of its stringified value in each column's non-empty
multi-select — all combined with logical AND; consequently the filtered
set is a subset of the unfiltered set. -/
theorem filter_semantics (startDate endDate : String)
    (filters : List (Column × List String)) (data : List TxnRow) (r : TxnRow) :
    (r ∈ applyFilters startDate endDate filters data ↔
        r ∈ data ∧ passesFilters startDate endDate filters r) ∧
      (r ∈ applyFilters startDate endDate filters data → r ∈ data) := by
  have hiff : r ∈ applyFilters startDate endDate filters data ↔
      r ∈ data ∧ passesFilters startDate endDate filters r := by
    rw [applyFilters, mem_foldl_multiselect, passesFilters]
    by_cases hs : startDate = "" <;> by_cases he : endDate = "" <;>
      (simp [hs, he, List.mem_filter, and_assoc]; try tauto)
  exact ⟨hiff, fun h => (hiff.mp h).1⟩

/-- C8 witness: with start date `2024-01-01`, no end date, and the type
multi-select `["Rent Paid"]`, the January rent row passes while the 2023
row and the repair row are excluded; the filtered set is the singleton. -/
theorem filter_semantics_witness :
    ⟨"2024-01-15", "1 High St", "rent", "Rent Paid", JsValue.num 1200⟩ ∈
      applyFilters "2024-01-01" "" [(Column.itemType, ["Rent Paid"])]
        [⟨"2023-12-30", "1 High St", "rent", "Rent Paid", JsValue.num 1100⟩,
         ⟨"2024-01-15", "1 High St", "rent", "Rent Paid", JsValue.num 1200⟩,
         ⟨"2024-02-02", "1 High St", "fix", "Repairs", JsValue.num (-50)⟩] ∧
    ⟨"2024-01-15", "1 High St", "rent", "Rent Paid", JsValue.num 1200⟩ ∈
      ([⟨"2023-12-30", "1 High St", "rent", "Rent Paid", JsValue.num 1100⟩,
        ⟨"2024-01-15", "1 High St", "rent", "Rent Paid", JsValue.num 1200⟩,
        ⟨"2024-02-02", "1 High St", "fix", "Repairs", JsValue.num (-50)⟩] : List TxnRow) := by
  refine ⟨?_, by simp⟩
  refine (filter_semantics "2024-01-01" "" [(Column.itemType, ["Rent Paid"])] _ _).1.mpr
    ⟨by simp, ?_, ?_, ?_⟩
  · intro _
    with_unfolding_all decide
  · intro h
    exact absurd rfl h
  · intro kv hkv hne
    rcases List.mem_cons.mp hkv with rfl | hmem
    · with_unfolding_all decide
    · cases hmem

/-
  ── Ledger sorting (`part_000:143–163`) ───────────────────────────────────

  The comparator dispatches on the sort key: `Number(…)` coercion for the
  amount column (NaN comparing false both ways, hence a tie), lowercased
  string comparison otherwise; `asc`/`desc` negates the result.  The sort
  itself is modelled as a stable insertion sort — ECMAScript requires
  `Array.prototype.sort` to be stable.
-/

inductive SortDirection where
  | asc | desc
deriving DecidableEq, Repr

/-- `sortConfig`: a column key and a direction. -/
structure SortConfig where
  key : Column
  direction : SortDirection
deriving DecidableEq, Repr

/-- A row's value as coerced by the comparator: `Number(aValue)` when the
key is the amount column, `aValue.toLowerCase()` otherwise (all
non-amount columns hold strings). -/
inductive SortValue where
  | num (q : Option ℚ)
  | str (s : String)
deriving DecidableEq, Repr

def sortValue (key : Column) (r : TxnRow) : SortValue :=
  match key with
  | .itemAmount => .num (jsToNumber r.itemAmount)
  | k => .str (jsToString (rowValue r k)).toLower

/-- JavaScript `<` on the coerced values; any comparison against NaN is
false. -/
def svLt : SortValue → SortValue → Bool
  | .num (some a), .num (some b) => a < b
  | .num _, .num _ => false
  | .str a, .str b => a < b
  | _, _ => false

/-- The comparator of `part_000:146–161`:
`aValue < bValue → asc ? -1 : 1`, `aValue > bValue → asc ? 1 : -1`,
ties → 0. -/
def compareRows (sc : SortConfig) (a b : TxnRow) : Int :=
  if svLt (sortValue sc.key a) (sortValue sc.key b) then
    match sc.direction with | .asc => -1 | .desc => 1
  else if svLt (sortValue sc.key b) (sortValue sc.key a) then
    match sc.direction with | .asc => 1 | .desc => -1
  else 0

/-- Stable insertion: place `x` before the first element it does not have
to follow (`compare x y ≤ 0`), keeping the original order of ties. -/
def insertSorted (cmp : TxnRow → TxnRow → Int) (x : TxnRow) : List TxnRow → List TxnRow
  | [] => [x]
  | y :: ys => if cmp x y ≤ 0 then x :: y :: ys else y :: insertSorted cmp x ys

/-- The ledger sort: a stable sort of the rows by the comparator. -/
def sortRows (sc : SortConfig) : List TxnRow → List TxnRow
  | [] => []
  | x :: xs => insertSorted (compareRows sc) x (sortRows sc xs)

/-- C9: sorting is idempotent — applying the ledger sort to a list already
sorted by the same key and direction (every adjacent pair compares ≤ 0)
returns the very same list, element for element. -/
theorem sort_idempotent (sc : SortConfig) (l : List TxnRow)
    (h : List.Chain' (fun a b => compareRows sc a b ≤ 0) l) :
    sortRows sc l = l := by
  induction l with
  | nil => rfl
  | cons x xs ih =>
    rw [sortRows, ih (List.Chain'.tail h)]
    cases xs with
    | nil => rfl
    | cons y ys =>
      have hxy : compareRows sc x y ≤ 0 := (List.chain'_cons.mp h).1
      rw [insertSorted, if_pos hxy]

/-- C9 witness: the two-row list sorted ascending by type
(`"rent paid" < "repairs"` after lowercasing) is returned unchanged. -/
theorem sort_idempotent_witness :
    sortRows ⟨Column.itemType, SortDirection.asc⟩
        [⟨"2024-01-15", "1 High St", "rent", "Rent Paid", JsValue.num 1200⟩,
         ⟨"2024-02-02", "1 High St", "fix", "Repairs", JsValue.num (-50)⟩] =
      [⟨"2024-01-15", "1 High St", "rent", "Rent Paid", JsValue.num 1200⟩,
       ⟨"2024-02-02", "1 High St", "fix", "Repairs", JsValue.num (-50)⟩] :=
  sort_idempotent ⟨Column.itemType, SortDirection.asc⟩
    [⟨"2024-01-15", "1 High St", "rent", "Rent Paid", JsValue.num 1200⟩,
     ⟨"2024-02-02", "1 High St", "fix", "Repairs", JsValue.num (-50)⟩]
    (by
      rw [List.chain'_cons]
      refine ⟨?_, List.chain'_singleton _⟩
      with_unfolding_all decide)

end Lansdowne
